import Mathlib

/-!
Shallow embedding of the core of the `llm-simulator` repository
(Go sources: `internal/simulator` in `main.go`'s simulator package,
`internal/handler/handler.go`), together with theorems settling the
specification claims about it.

Conventions of the embedding:
* Go strings are Lean `String`s; Go `len(s)` (UTF-8 byte length) is
  modelled explicitly by `strLen` below.
* Go `int` token counts are `Nat` (the source only ever adds
  non-negative quantities to them); HTTP status codes are `Int`.
* The generated id (`fmt.Sprintf("chatcmpl-sim-%d", time.Now().UnixNano())`)
  and the `time.Now().Unix()` timestamp are impure; they are passed in as
  parameters `id` and `created` (the source computes the id once per
  request and reuses it for every chunk, which the single parameter models;
  no claim constrains the timestamp values).
* `rand.Float64()`, a value in [0,1), is modelled by a rational `draw`
  parameter; the error rate (a Go `float64` compared only against the
  exact endpoints 0 and 1 in the claims) is likewise a rational.
-/

/-- Models Go `unicode.IsSpace` as used by `strings.Fields`, restricted to
the Latin-1 range handled by Go's explicit table ('\t', '\n', '\v', '\f',
'\r', ' ', U+0085, U+00A0); the source texts in this repository contain no
other Unicode white space. -/
def goIsSpace (c : Char) : Bool :=
  c = ' ' || c = '\t' || c = '\n' || c = '\x0b' || c = '\x0c' || c = '\r' ||
    c = '\u0085' || c = ' '

/-- Accumulator-style splitting of a character list into maximal runs of
non-space characters: the recursion of Go `strings.Fields`. `acc` holds the
current word reversed. -/
def fieldsAux : List Char → List Char → List (List Char)
  | [], acc => if acc = [] then [] else [acc.reverse]
  | c :: cs, acc =>
    if goIsSpace c then
      if acc = [] then fieldsAux cs [] else acc.reverse :: fieldsAux cs []
    else fieldsAux cs (c :: acc)

/-- Go `strings.Fields` on a character list. -/
def fieldsList (cs : List Char) : List (List Char) := fieldsAux cs []

/-- Go `strings.Fields(s)`: split `s` around runs of white space. -/
def goFields (s : String) : List String := (fieldsList s.data).map String.mk

/-- Modelled from the spec: "trimming" in the round-trip property
(Go `strings.TrimSpace`): remove leading and trailing white space. -/
def trimChars (cs : List Char) : List Char :=
  ((cs.dropWhile goIsSpace).reverse.dropWhile goIsSpace).reverse

/-- Modelled from the spec: trimming, lifted to strings. -/
def trimSpace (s : String) : String := String.mk (trimChars s.data)

/-- Modelled from the spec: "concatenating in order" a list of chunk
contents. -/
def concatStrings : List String → String
  | [] => ""
  | s :: rest => s ++ concatStrings rest

/-- Single-space intercalation of a list of words (character level);
the "single trailing spaces between words" shape of the spec. -/
def interChars : List (List Char) → List Char
  | [] => []
  | [w] => w
  | w :: x :: ws => w ++ ' ' :: interChars (x :: ws)

/-- Single-space join of a list of words, lifted to strings. -/
def spaceJoin (ws : List String) : String :=
  String.mk (interChars (ws.map String.data))

/-- UTF-8 byte size of one character, as Go encodes it (Go `len` counts
bytes). -/
def charByteSize (c : Char) : Nat :=
  if c.val ≤ 0x7F then 1 else if c.val ≤ 0x7FF then 2
  else if c.val ≤ 0xFFFF then 3 else 4

/-- UTF-8 byte length of a character list. -/
def goLen : List Char → Nat
  | [] => 0
  | c :: cs => charByteSize c + goLen cs

/-- Go `len(s)` for a string `s`: its UTF-8 byte length. -/
def strLen (s : String) : Nat := goLen s.data

/-- One chat message (`model.Message`): role and content. -/
structure Message where
  role : String
  content : String
deriving DecidableEq, Repr

/-- `model.ChatCompletionRequest`: requested model (possibly empty),
message list, stream flag. -/
structure ChatCompletionRequest where
  model : String
  messages : List Message
  stream : Bool
deriving DecidableEq, Repr

/-- `model.Usage`: token counts. The Go struct's zero value is
`{0, 0, 0}`. -/
structure Usage where
  promptTokens : Nat
  completionTokens : Nat
  totalTokens : Nat
deriving DecidableEq, Repr

/-- `model.Choice`: index, optional full message (`*Message`), optional
delta (`*Message`), optional finish reason (`*string`). -/
structure Choice where
  index : Nat
  message : Option Message
  delta : Option Message
  finishReason : Option String
deriving DecidableEq, Repr

/-- `model.ChatCompletionResponse`: one completion or one stream chunk. -/
structure ChatCompletionResponse where
  id : String
  object : String
  created : Int
  model : String
  choices : List Choice
  usage : Usage
deriving DecidableEq, Repr

/-- `simulator.Config`. The two delays are nanosecond counts
(`time.Duration`); `errorRate` is the `float64` error probability,
modelled as a rational. -/
structure Config where
  defaultModel : String
  availableModels : List String
  responseDelay : Nat
  streamChunkDelay : Nat
  echoMode : Bool
  fixedResponse : String
  errorRate : ℚ
  errorStatusCode : Int
deriving DecidableEq, Repr

/-- `estimateStringTokens` (main.go:498-505): `len(s)/4`, bumped to 1 when
that is 0 and the string is non-empty. -/
def estimateStringTokens (s : String) : Nat :=
  let tokens := strLen s / 4
  if tokens = 0 ∧ 0 < strLen s then 1 else tokens

/-- `(*Simulator).estimateTokens` (main.go:489-496): sum of
`estimateStringTokens(content) + 4` over the messages. -/
def estimateTokens (messages : List Message) : Nat :=
  messages.foldl (fun total m => total + (estimateStringTokens m.content + 4)) 0

/-- `(*Simulator).getResponseText` (main.go:481-487): echo of the last
message when echo mode is on and the list is non-empty, else the fixed
response. -/
def getResponseText (cfg : Config) (req : ChatCompletionRequest) : String :=
  if h : cfg.echoMode = true ∧ req.messages ≠ [] then
    "Echo: " ++ (req.messages.getLast h.2).content
  else
    cfg.fixedResponse

/-- Model-name resolution shared by `GenerateResponse` and
`GenerateStreamChunks`: the request's model when non-empty, else the
configured default. -/
def resolveModel (cfg : Config) (req : ChatCompletionRequest) : String :=
  if req.model = "" then cfg.defaultModel else req.model

/-- `(*Simulator).GenerateResponse` (main.go:363-395). -/
def generateResponse (cfg : Config) (id : String) (created : Int)
    (req : ChatCompletionRequest) : ChatCompletionResponse :=
  let responseText := getResponseText cfg req
  let promptTokens := estimateTokens req.messages
  let completionTokens := estimateStringTokens responseText
  { id := id
    object := "chat.completion"
    created := created
    model := resolveModel cfg req
    choices := [{ index := 0
                  message := some { role := "assistant", content := responseText }
                  delta := none
                  finishReason := some "stop" }]
    usage := { promptTokens := promptTokens
               completionTokens := completionTokens
               totalTokens := promptTokens + completionTokens } }

/-- The leading role-announcement chunk of a stream
(main.go:410-424): delta is `&Message{Role: "assistant"}` (content is the
zero value `""`), no finish reason, zero-value usage. -/
def roleChunk (id : String) (created : Int) (model : String) :
    ChatCompletionResponse :=
  { id := id, object := "chat.completion.chunk", created := created
    model := model
    choices := [{ index := 0, message := none
                  delta := some { role := "assistant", content := "" }
                  finishReason := none }]
    usage := { promptTokens := 0, completionTokens := 0, totalTokens := 0 } }

/-- One word chunk of a stream (main.go:427-443): delta is
`&Message{Content: word + " "}`, no finish reason, zero-value usage. -/
def wordChunk (id : String) (created : Int) (model : String) (word : String) :
    ChatCompletionResponse :=
  { id := id, object := "chat.completion.chunk", created := created
    model := model
    choices := [{ index := 0, message := none
                  delta := some { role := "", content := word ++ " " }
                  finishReason := none }]
    usage := { promptTokens := 0, completionTokens := 0, totalTokens := 0 } }

/-- The terminal chunk of a stream (main.go:446-459): empty delta
(`&Message{}`), finish reason `"stop"`, zero-value usage. -/
def finalChunk (id : String) (created : Int) (model : String) :
    ChatCompletionResponse :=
  { id := id, object := "chat.completion.chunk", created := created
    model := model
    choices := [{ index := 0, message := none
                  delta := some { role := "", content := "" }
                  finishReason := some "stop" }]
    usage := { promptTokens := 0, completionTokens := 0, totalTokens := 0 } }

/-- `(*Simulator).GenerateStreamChunks` (main.go:398-462): role chunk,
one chunk per field of the composed text, terminal chunk. -/
def generateStreamChunks (cfg : Config) (id : String) (created : Int)
    (req : ChatCompletionRequest) : List ChatCompletionResponse :=
  let responseText := getResponseText cfg req
  let resolvedModel := resolveModel cfg req
  let words := goFields responseText
  roleChunk id created resolvedModel ::
    (words.map (wordChunk id created resolvedModel) ++
      [finalChunk id created resolvedModel])

/-- Delta content carried by a chunk's (sole) choice; `""` when absent. -/
def chunkContent (c : ChatCompletionResponse) : String :=
  match c.choices with
  | ch :: _ =>
    match ch.delta with
    | some d => d.content
    | none => ""
  | [] => ""

/-- Delta role carried by a chunk's (sole) choice; `""` when absent. -/
def chunkRole (c : ChatCompletionResponse) : String :=
  match c.choices with
  | ch :: _ =>
    match ch.delta with
    | some d => d.role
    | none => ""
  | [] => ""

/-- Finish reason of a response's (sole) choice. -/
def chunkFinish (c : ChatCompletionResponse) : Option String :=
  match c.choices with
  | ch :: _ => ch.finishReason
  | [] => none

/-- The word chunks of a stream: everything strictly between the role
chunk and the terminal chunk. -/
def wordContents (chunks : List ChatCompletionResponse) : List String :=
  ((chunks.drop 1).dropLast).map chunkContent

/-- Outcome of one `POST /v1/chat/completions` request, as decided by
`(*Handler).ChatCompletions` (handler.go:43-81) on an already-parsed body. -/
inductive ChatOutcome where
  | invalidRequest (status : Int) (errType : String)
  | injectedError (status : Int) (errType : String)
  | streamOk (chunks : List ChatCompletionResponse)
  | ok (resp : ChatCompletionResponse)
deriving DecidableEq, Repr

/-- `(*Handler).ChatCompletions` (handler.go:43-81) on a parsed request:
empty-messages validation, then error injection against the random
`draw`, then dispatch on the stream flag. The response delay
(`time.Sleep`) has no observable effect on the outcome and is not
modelled. -/
def chatCompletions (cfg : Config) (draw : ℚ) (id : String) (created : Int)
    (req : ChatCompletionRequest) : ChatOutcome :=
  if req.messages.length = 0 then
    .invalidRequest 400 "invalid_request_error"
  else if cfg.errorRate > 0 ∧ draw < cfg.errorRate then
    let statusCode := if cfg.errorStatusCode = 0 then 500 else cfg.errorStatusCode
    .injectedError statusCode "server_error"
  else if req.stream then
    .streamOk (generateStreamChunks cfg id created req)
  else
    .ok (generateResponse cfg id created req)

/-- A configuration used in concrete evaluations below. -/
def sampleConfig : Config :=
  { defaultModel := "llm-simulator-1"
    availableModels := ["llm-simulator-1", "gpt-4o", "gpt-4o-mini"]
    responseDelay := 0
    streamChunkDelay := 0
    echoMode := false
    fixedResponse := "Hello world test"
    errorRate := 0
    errorStatusCode := 500 }

/-- A request used in concrete evaluations below. -/
def sampleRequest : ChatCompletionRequest :=
  { model := "test-model"
    messages := [{ role := "user", content := "Hi" }]
    stream := true }

example : goFields "Hello world test" = ["Hello", "world", "test"] := by decide
example : goFields "" = [] := by decide
example : goFields "  a  b " = ["a", "b"] := by decide
example : estimateStringTokens "Hi" = 1 := by decide
example : estimateStringTokens "" = 0 := by decide
example : estimateStringTokens "Hello world test" = 4 := by decide
example : (generateStreamChunks sampleConfig "id0" 7 sampleRequest).length = 5 := by
  decide
example :
    wordContents (generateStreamChunks sampleConfig "id0" 7 sampleRequest) =
      ["Hello ", "world ", "test "] := by decide
example :
    trimSpace (concatStrings ["Hello ", "world ", "test "]) = "Hello world test" := by
  decide

/-! ## Properties of field splitting, joining and trimming -/

/-- Every word produced by `fieldsAux` is non-empty and contains no white
space, provided the accumulator contains none. -/
theorem fieldsAux_mem {cs acc : List Char}
    (hacc : ∀ c ∈ acc, goIsSpace c = false) :
    ∀ w ∈ fieldsAux cs acc, w ≠ [] ∧ ∀ c ∈ w, goIsSpace c = false := by
  induction cs generalizing acc with
  | nil =>
    intro w hw
    unfold fieldsAux at hw
    split at hw
    · simp at hw
    · next h =>
      simp only [List.mem_singleton] at hw
      subst hw
      refine ⟨by simpa using h, ?_⟩
      intro c hc
      exact hacc c (List.mem_reverse.mp hc)
  | cons c cs ih =>
    intro w hw
    unfold fieldsAux at hw
    split at hw
    · split at hw
      · exact ih (by simp) w hw
      · next hne =>
        rcases List.mem_cons.mp hw with h | h
        · subst h
          refine ⟨by simpa using hne, ?_⟩
          intro x hx
          exact hacc x (List.mem_reverse.mp hx)
        · exact ih (by simp) w h
    · next hsp =>
      refine ih ?_ w hw
      intro x hx
      rcases List.mem_cons.mp hx with h | h
      · subst h; simpa using hsp
      · exact hacc x h

/-- Every field of a character list is a non-empty run of non-space
characters. -/
theorem fieldsList_mem {cs : List Char} :
    ∀ w ∈ fieldsList cs, w ≠ [] ∧ ∀ c ∈ w, goIsSpace c = false :=
  fieldsAux_mem (by simp)

/-- Appending one space to every word and concatenating equals the
single-space intercalation followed by one trailing space. -/
theorem join_map_space :
    ∀ ws : List (List Char), ws ≠ [] →
      (ws.map (fun w => w ++ [' '])).flatten = interChars ws ++ [' ']
  | [], h => absurd rfl h
  | [w], _ => by simp [interChars]
  | w :: x :: ws, _ => by
    have ih := join_map_space (x :: ws) (by simp)
    show (w ++ [' ']) ++ ((x :: ws).map (fun w => w ++ [' '])).flatten =
      (w ++ ' ' :: interChars (x :: ws)) ++ [' ']
    rw [ih]
    simp

/-- A list all of whose characters are non-space is unchanged by
`dropWhile goIsSpace`. -/
theorem dropWhile_eq_self_of_nonspace {l : List Char}
    (h : ∀ c ∈ l, goIsSpace c = false) : l.dropWhile goIsSpace = l := by
  cases l with
  | nil => rfl
  | cons c t => simp [List.dropWhile_cons, h c (by simp)]

/-- If `dropWhile` leaves a cons unchanged, its head fails the predicate. -/
theorem head_false_of_dropWhile_eq {p : Char → Bool} {c : Char} {t : List Char}
    (h : (c :: t).dropWhile p = c :: t) : p c = false := by
  by_contra hc
  have hc' : p c = true := by simpa using hc
  rw [List.dropWhile_cons_of_pos hc'] at h
  have := (List.dropWhile_sublist (l := t) p).length_le
  rw [h] at this
  simp at this

/-- The intercalation of a non-empty list of non-empty space-free words
starts with a non-space character, hence is unchanged by a left trim. -/
theorem dropWhile_interChars {ws : List (List Char)} (hne : ws ≠ [])
    (hn : ∀ w ∈ ws, w ≠ [] ∧ ∀ c ∈ w, goIsSpace c = false) :
    (interChars ws).dropWhile goIsSpace = interChars ws := by
  match ws with
  | [] => exact absurd rfl hne
  | w :: ws =>
    have hw := hn w (by simp)
    match w, hw with
    | [], hw => exact absurd rfl hw.1
    | c :: t, hw =>
      have hc : goIsSpace c = false := hw.2 c (by simp)
      match ws with
      | [] => simpa [interChars] using dropWhile_eq_self_of_nonspace hw.2
      | x :: ws =>
        show ((c :: t) ++ ' ' :: interChars (x :: ws)).dropWhile goIsSpace = _
        rw [List.cons_append, List.dropWhile_cons_of_neg (by simp [hc])]
        rfl

/-- The intercalation of non-empty words is non-empty. -/
theorem interChars_ne_nil {w : List Char} {ws : List (List Char)}
    (hw : w ≠ []) : interChars (w :: ws) ≠ [] := by
  cases ws with
  | nil => simpa [interChars] using hw
  | cons x ws => cases w with
    | nil => exact absurd rfl hw
    | cons c t => simp [interChars]

/-- The intercalation of a non-empty list of non-empty space-free words
ends with a non-space character, hence its reverse is unchanged by a left
trim. -/
theorem dropWhile_reverse_interChars {ws : List (List Char)} (hne : ws ≠ [])
    (hn : ∀ w ∈ ws, w ≠ [] ∧ ∀ c ∈ w, goIsSpace c = false) :
    (interChars ws).reverse.dropWhile goIsSpace = (interChars ws).reverse := by
  induction ws with
  | nil => exact absurd rfl hne
  | cons w ws ih =>
    have hw := hn w (by simp)
    cases ws with
    | nil =>
      refine dropWhile_eq_self_of_nonspace ?_
      intro c hc
      exact hw.2 c (by simpa [interChars] using hc)
    | cons x ws =>
      have hni : ∀ v ∈ x :: ws, v ≠ [] ∧ ∀ c ∈ v, goIsSpace c = false := by
        intro v hv
        exact hn v (List.mem_cons_of_mem w hv)
      have ihx := ih (by simp) hni
      have hxne : interChars (x :: ws) ≠ [] :=
        interChars_ne_nil (hni x (by simp)).1
      cases hrev : (interChars (x :: ws)).reverse with
      | nil => exact absurd (by simpa using hrev) hxne
      | cons c t =>
        rw [hrev] at ihx
        have hc : goIsSpace c = false := head_false_of_dropWhile_eq ihx
        have hgoal : (interChars (w :: x :: ws)).reverse =
            c :: (t ++ [' '] ++ w.reverse) := by
          show (w ++ ' ' :: interChars (x :: ws)).reverse = _
          rw [List.reverse_append, List.reverse_cons, hrev]
          simp
        rw [hgoal, List.dropWhile_cons_of_neg (by simp [hc])]

/-- Trimming a list that starts and ends with non-space characters, after
one extra trailing space, recovers the list. -/
theorem trimChars_append_space {cs : List Char}
    (h1 : cs.dropWhile goIsSpace = cs)
    (h2 : cs.reverse.dropWhile goIsSpace = cs.reverse) :
    trimChars (cs ++ [' ']) = cs := by
  cases cs with
  | nil => rfl
  | cons c t =>
    have hc : goIsSpace c = false := head_false_of_dropWhile_eq h1
    unfold trimChars
    rw [List.cons_append, List.dropWhile_cons_of_neg (by simp [hc]),
      ← List.cons_append, List.reverse_append]
    show ((' ' :: (c :: t).reverse).dropWhile goIsSpace).reverse = _
    rw [List.dropWhile_cons_of_pos (by decide), h2, List.reverse_reverse]

/-- Round trip at the character level: appending one space to each word,
concatenating and trimming yields the single-space intercalation. -/
theorem trim_join_words {ws : List (List Char)}
    (hn : ∀ w ∈ ws, w ≠ [] ∧ ∀ c ∈ w, goIsSpace c = false) :
    trimChars ((ws.map (fun w => w ++ [' '])).flatten) = interChars ws := by
  cases ws with
  | nil => rfl
  | cons w ws' =>
    rw [join_map_space _ (by simp)]
    exact trimChars_append_space (dropWhile_interChars (by simp) hn)
      (dropWhile_reverse_interChars (by simp) hn)

/-! ## String-level bridges -/

/-- `concatStrings` at the character level. -/
theorem concatStrings_data :
    ∀ l : List String, (concatStrings l).data = (l.map String.data).flatten
  | [] => rfl
  | s :: rest => by
    show (s ++ concatStrings rest).data = _
    rw [String.data_append, concatStrings_data rest]
    rfl

/-- The word chunks of a generated stream carry exactly the fields of the
composed text, each with one trailing space. -/
theorem wordContents_generateStreamChunks (cfg : Config) (id : String)
    (created : Int) (req : ChatCompletionRequest) :
    wordContents (generateStreamChunks cfg id created req) =
      (goFields (getResponseText cfg req)).map (fun w => w ++ " ") := by
  unfold wordContents generateStreamChunks
  simp [List.dropLast_concat, List.map_map, chunkContent, wordChunk,
    Function.comp]

/-- The data of the fields of `s` are the fields of the data of `s`. -/
theorem goFields_data (s : String) :
    (goFields s).map String.data = fieldsList s.data := by
  unfold goFields
  have hcomp : (String.data ∘ String.mk) = id := by
    funext l
    rfl
  rw [List.map_map, hcomp, List.map_id]

/-- Appending `" "` at the character level. -/
theorem data_append_space (w : String) : (w ++ " ").data = w.data ++ [' '] := by
  rw [String.data_append]

/-! ## Claim theorems -/

/-- A configuration whose fixed response contains a double space; it is a
counterexample to the universal round-trip of C1. -/
def c1Config : Config := { sampleConfig with fixedResponse := "a  b" }

/-- C1, counterexample: with the fixed response `"a  b"` (two spaces), the
rejoined-and-trimmed chunk contents give `"a b"`, not the composed text,
so the round trip does not hold for every composed text. -/
theorem C1_counterexample :
    trimSpace (concatStrings (wordContents
      (generateStreamChunks c1Config "id0" 7 sampleRequest))) ≠
      getResponseText c1Config sampleRequest := by decide

/-- C1, amended: concatenating the word-chunk contents in order always
yields the fields of the composed text each followed by a single space;
and whenever the composed text equals the single-space join of its fields
(no leading/trailing white space, no consecutive white space), rejoining
the chunk contents and trimming reconstructs it exactly. -/
theorem C1_stream_concat_round_trip (cfg : Config) (id : String)
    (created : Int) (req : ChatCompletionRequest) :
    concatStrings (wordContents (generateStreamChunks cfg id created req)) =
      concatStrings ((goFields (getResponseText cfg req)).map (fun w => w ++ " "))
    ∧ (spaceJoin (goFields (getResponseText cfg req)) = getResponseText cfg req →
        trimSpace (concatStrings (wordContents
          (generateStreamChunks cfg id created req))) =
          getResponseText cfg req) := by
  refine ⟨by rw [wordContents_generateStreamChunks], ?_⟩
  intro hnorm
  rw [wordContents_generateStreamChunks]
  have hfun : (String.data ∘ fun w : String => w ++ " ") =
      fun w : String => w.data ++ [' '] := by
    funext w
    exact data_append_space w
  have hkey : trimSpace (concatStrings
      ((goFields (getResponseText cfg req)).map (fun w => w ++ " "))) =
      spaceJoin (goFields (getResponseText cfg req)) := by
    unfold trimSpace spaceJoin
    congr 1
    rw [concatStrings_data, List.map_map, hfun, goFields_data]
    unfold goFields
    rw [List.map_map]
    have hfun2 : ((fun w : String => w.data ++ [' ']) ∘ String.mk) =
        fun w : List Char => w ++ [' '] := by
      funext w
      rfl
    rw [hfun2]
    exact trim_join_words fieldsList_mem
  rw [hkey, hnorm]

/-- C1, witness: for the normalized composed text `"Hello world test"` the
round trip reconstructs the text exactly. -/
theorem C1_witness :
    trimSpace (concatStrings (wordContents
      (generateStreamChunks sampleConfig "id0" 7 sampleRequest))) =
      "Hello world test" := by
  have h := (C1_stream_concat_round_trip sampleConfig "id0" 7
    sampleRequest).2 (by decide)
  rw [h]
  decide

/-- C2: the stream consists of exactly one role chunk (role `"assistant"`,
no content, no finish reason), one chunk per word of the composed text
(content the word plus a trailing space, no finish reason), and one
terminal chunk (empty delta, finish reason `"stop"`), in that order; its
length is the word count plus two, also when the word count is zero. -/
theorem C2_chunk_structure (cfg : Config) (id : String) (created : Int)
    (req : ChatCompletionRequest) :
    (generateStreamChunks cfg id created req).map
        (fun c => (chunkRole c, chunkContent c, chunkFinish c)) =
      ("assistant", "", none) ::
        ((goFields (getResponseText cfg req)).map
            (fun w => ("", w ++ " ", none)) ++ [("", "", some "stop")])
    ∧ (generateStreamChunks cfg id created req).length =
        (goFields (getResponseText cfg req)).length + 2 := by
  constructor
  · simp [generateStreamChunks, chunkRole, chunkContent, chunkFinish,
      roleChunk, wordChunk, finalChunk, List.map_map, Function.comp]
  · simp [generateStreamChunks]

/-- An echoing configuration used in concrete evaluations below. -/
def echoConfig : Config := { sampleConfig with echoMode := true }

/-- C3: the composed text is `"Echo: "` plus the last message's content
when echo mode is on and the message list is non-empty, and the
configured fixed response verbatim otherwise (echo off, or echo on with
an empty list). Totality is inherent: `getResponseText` is a total Lean
function. -/
theorem C3_composed_text (cfg : Config) (req : ChatCompletionRequest) :
    (∀ m : Message, cfg.echoMode = true → req.messages.getLast? = some m →
      getResponseText cfg req = "Echo: " ++ m.content)
    ∧ ((cfg.echoMode = false ∨ req.messages = []) →
        getResponseText cfg req = cfg.fixedResponse) := by
  constructor
  · intro m hecho hlast
    have hne : req.messages ≠ [] := by
      intro h
      rw [h] at hlast
      simp at hlast
    unfold getResponseText
    rw [dif_pos ⟨hecho, hne⟩]
    rw [List.getLast?_eq_getLast _ hne] at hlast
    rw [Option.some_inj.mp hlast]
  · intro h
    unfold getResponseText
    rw [dif_neg]
    rintro ⟨h1, h2⟩
    rcases h with h | h
    · rw [h1] at h
      cases h
    · exact h2 h

/-- C3, witness: echo mode echoes the last message; fixed mode returns the
fixed response. -/
theorem C3_witness :
    getResponseText echoConfig sampleRequest = "Echo: Hi"
    ∧ getResponseText sampleConfig sampleRequest = "Hello world test" := by
  constructor
  · have h := (C3_composed_text echoConfig sampleRequest).1
      ⟨"user", "Hi"⟩ rfl (by decide)
    rw [h]
    decide
  · exact (C3_composed_text sampleConfig sampleRequest).2 (Or.inl rfl)

/-- Every character occupies at least one byte. -/
theorem charByteSize_pos (c : Char) : 0 < charByteSize c := by
  unfold charByteSize
  split
  · decide
  split
  · decide
  split
  · decide
  · decide

/-- A non-empty string has positive byte length. -/
theorem strLen_pos {s : String} (h : s ≠ "") : 0 < strLen s := by
  obtain ⟨d⟩ := s
  cases d with
  | nil => exact absurd (by decide) h
  | cons c t =>
    show 0 < charByteSize c + goLen t
    have := charByteSize_pos c
    omega

/-- C4: the token estimate is `floor(len/4)` of the byte length, except
that it is 1 when the text is non-empty and the quotient is 0, and 0 for
the empty text. -/
theorem C4_token_estimate (s : String) :
    (s = "" → estimateStringTokens s = 0)
    ∧ (s ≠ "" → strLen s / 4 = 0 → estimateStringTokens s = 1)
    ∧ (strLen s / 4 ≠ 0 → estimateStringTokens s = strLen s / 4) := by
  refine ⟨?_, ?_, ?_⟩
  · intro h
    subst h
    decide
  · intro h h4
    show (if strLen s / 4 = 0 ∧ 0 < strLen s then 1 else strLen s / 4) = 1
    rw [if_pos ⟨h4, strLen_pos h⟩]
  · intro h4
    show (if strLen s / 4 = 0 ∧ 0 < strLen s then 1 else strLen s / 4) =
      strLen s / 4
    rw [if_neg]
    rintro ⟨h0, _⟩
    exact h4 h0

/-- C4, witness: the empty text yields 0, `"Hi"` yields 1 (short non-empty
text), `"Hello world test"` yields 4 (16 bytes / 4). -/
theorem C4_witness :
    estimateStringTokens "" = 0 ∧ estimateStringTokens "Hi" = 1
    ∧ estimateStringTokens "Hello world test" = 4 := by
  refine ⟨(C4_token_estimate "").1 rfl,
    (C4_token_estimate "Hi").2.1 (by decide) (by decide), ?_⟩
  have h := (C4_token_estimate "Hello world test").2.2 (by decide)
  rw [h]
  decide

/-- Folding the per-message token count from any start value adds the sum
of the mapped counts. -/
theorem foldl_tokens_eq (f : Message → Nat) :
    ∀ (msgs : List Message) (n : Nat),
      msgs.foldl (fun t m => t + f m) n = n + (msgs.map f).sum
  | [], n => by simp
  | m :: ms, n => by
    show (ms.foldl (fun t m => t + f m) (n + f m)) = _
    rw [foldl_tokens_eq f ms (n + f m)]
    simp [Nat.add_assoc]

/-- `estimateTokens` is the sum over the messages of the per-message
estimate plus the constant 4 overhead. -/
theorem estimateTokens_eq_sum (messages : List Message) :
    estimateTokens messages =
      (messages.map (fun m => estimateStringTokens m.content + 4)).sum := by
  unfold estimateTokens
  rw [foldl_tokens_eq (fun m => estimateStringTokens m.content + 4) messages 0]
  simp

/-- A non-empty text has a positive token estimate. -/
theorem estimateStringTokens_pos {s : String} (h : s ≠ "") :
    0 < estimateStringTokens s := by
  have hp := strLen_pos h
  show 0 < (if strLen s / 4 = 0 ∧ 0 < strLen s then 1 else strLen s / 4)
  split
  · decide
  · next hcond =>
    rcases Decidable.not_and_iff_or_not.mp hcond with h4 | hlen
    · omega
    · exact absurd hp hlen

/-- C5: the non-streaming usage has prompt tokens equal to the sum over
the messages of `estimateStringTokens(content) + 4`, completion tokens
equal to the estimate of the composed text, total equal to their sum;
both components are non-negative (they are natural numbers), and the
completion count is positive whenever the composed text is non-empty. -/
theorem C5_usage (cfg : Config) (id : String) (created : Int)
    (req : ChatCompletionRequest) :
    (generateResponse cfg id created req).usage.promptTokens =
      (req.messages.map (fun m => estimateStringTokens m.content + 4)).sum
    ∧ (generateResponse cfg id created req).usage.completionTokens =
        estimateStringTokens (getResponseText cfg req)
    ∧ (generateResponse cfg id created req).usage.totalTokens =
        (generateResponse cfg id created req).usage.promptTokens +
          (generateResponse cfg id created req).usage.completionTokens
    ∧ 0 ≤ (generateResponse cfg id created req).usage.promptTokens
    ∧ 0 ≤ (generateResponse cfg id created req).usage.completionTokens
    ∧ (getResponseText cfg req ≠ "" →
        0 < (generateResponse cfg id created req).usage.completionTokens) := by
  refine ⟨?_, rfl, rfl, Nat.zero_le _, Nat.zero_le _, ?_⟩
  · show estimateTokens req.messages = _
    exact estimateTokens_eq_sum req.messages
  · intro h
    show 0 < estimateStringTokens (getResponseText cfg req)
    exact estimateStringTokens_pos h

/-- C5, witness: for the sample request ("Hi", overhead 4) and composed
text "Hello world test" the usage is 5 prompt, 4 completion, 9 total, and
the completion count is positive. -/
theorem C5_witness :
    (generateResponse sampleConfig "id0" 7 sampleRequest).usage.promptTokens = 5
    ∧ (generateResponse sampleConfig "id0" 7 sampleRequest).usage.completionTokens = 4
    ∧ (generateResponse sampleConfig "id0" 7 sampleRequest).usage.totalTokens = 9
    ∧ 0 < (generateResponse sampleConfig "id0" 7 sampleRequest).usage.completionTokens := by
  have h := C5_usage sampleConfig "id0" 7 sampleRequest
  refine ⟨?_, ?_, ?_, h.2.2.2.2.2 (by decide)⟩
  · rw [h.1]
    decide
  · rw [h.2.1]
    decide
  · rw [h.2.2.1, h.1, h.2.1]
    decide

/-- A configuration that always injects an error with status 503. -/
def errorConfig : Config :=
  { sampleConfig with errorRate := 1, errorStatusCode := 503 }

/-- C6: for a valid (non-empty-messages) request, with error rate 1.0 the
handler fails with the injected error and the configured status code (500
when the configured code is zero) for every draw in [0,1); with error
rate 0.0 no request fails by injection, for every draw. -/
theorem C6_error_injection (cfg : Config) (draw : ℚ) (id : String)
    (created : Int) (req : ChatCompletionRequest)
    (hne : req.messages ≠ []) :
    (cfg.errorRate = 1 → 0 ≤ draw → draw < 1 →
      chatCompletions cfg draw id created req =
        .injectedError
          (if cfg.errorStatusCode = 0 then 500 else cfg.errorStatusCode)
          "server_error")
    ∧ (cfg.errorRate = 0 →
        ∀ st et, chatCompletions cfg draw id created req ≠
          .injectedError st et) := by
  have hlen : ¬ req.messages.length = 0 := by
    simpa using hne
  constructor
  · intro h1 _ hd
    unfold chatCompletions
    rw [if_neg hlen, if_pos ⟨by rw [h1]; exact one_pos, by rw [h1]; exact hd⟩]
  · intro h0 st et
    unfold chatCompletions
    rw [if_neg hlen, if_neg (by rw [h0]; rintro ⟨hh, _⟩; exact absurd hh (lt_irrefl 0))]
    split
    · intro hcon
      cases hcon
    · intro hcon
      cases hcon

/-- C6, witness: with rate 1 and status 503 the draw 1/2 is rejected with
status 503; with rate 0 the same draw is never rejected by injection. -/
theorem C6_witness :
    chatCompletions errorConfig (1/2) "id0" 7 sampleRequest =
      .injectedError 503 "server_error"
    ∧ ∀ st et, chatCompletions sampleConfig (1/2) "id0" 7 sampleRequest ≠
        .injectedError st et := by
  constructor
  · have h := (C6_error_injection errorConfig (1/2) "id0" 7 sampleRequest
      (by decide)).1 rfl (by norm_num) (by norm_num)
    simpa using h
  · exact (C6_error_injection sampleConfig (1/2) "id0" 7 sampleRequest
      (by decide)).2 rfl

/-- A request with an empty message list. -/
def emptyRequest : ChatCompletionRequest :=
  { model := "test", messages := [], stream := false }

/-- C7: a request with an empty message list is rejected with status 400
and error type `invalid_request_error`, for every configuration (error
rate 1.0 included) and every random draw; neither error injection nor the
composer is reached. -/
theorem C7_empty_messages (cfg : Config) (draw : ℚ) (id : String)
    (created : Int) (req : ChatCompletionRequest)
    (h : req.messages = []) :
    chatCompletions cfg draw id created req =
      .invalidRequest 400 "invalid_request_error" := by
  unfold chatCompletions
  rw [if_pos (by simp [h])]

/-- C7, witness: the empty-messages request is rejected even under a
configuration that would always inject an error (rate 1, draw 0). -/
theorem C7_witness :
    chatCompletions errorConfig 0 "id0" 7 emptyRequest =
      .invalidRequest 400 "invalid_request_error" :=
  C7_empty_messages errorConfig 0 "id0" 7 emptyRequest rfl

/-- Every chunk of a generated stream carries the generated id, the
resolved model name, and the zero-value usage. -/
theorem generateStreamChunks_mem (cfg : Config) (id : String) (created : Int)
    (req : ChatCompletionRequest) :
    ∀ c ∈ generateStreamChunks cfg id created req,
      c.id = id ∧ c.model = resolveModel cfg req
        ∧ c.usage = { promptTokens := 0, completionTokens := 0,
                      totalTokens := 0 } := by
  intro c hc
  simp only [generateStreamChunks, List.mem_cons, List.mem_append,
    List.mem_map, List.mem_singleton] at hc
  rcases hc with rfl | ⟨w, _, rfl⟩ | rfl | hfalse
  · exact ⟨rfl, rfl, rfl⟩
  · exact ⟨rfl, rfl, rfl⟩
  · exact ⟨rfl, rfl, rfl⟩
  · cases hfalse

/-- A generated stream is the role chunk and the word chunks, followed by
the terminal chunk. -/
theorem generateStreamChunks_concat (cfg : Config) (id : String)
    (created : Int) (req : ChatCompletionRequest) :
    generateStreamChunks cfg id created req =
      (roleChunk id created (resolveModel cfg req) ::
        (goFields (getResponseText cfg req)).map
          (wordChunk id created (resolveModel cfg req))) ++
        [finalChunk id created (resolveModel cfg req)] := by
  simp [generateStreamChunks]

/-- C8: every chunk of a stream carries the same generated id, the same
resolved model name and zero usage; the finish reason is `"stop"` on the
last chunk and `none` on every earlier chunk; and the non-streaming
response has finish reason `"stop"` and usage totalling prompt plus
completion. -/
theorem C8_chunk_invariants (cfg : Config) (id : String) (created : Int)
    (req : ChatCompletionRequest) :
    (∀ c ∈ generateStreamChunks cfg id created req,
      c.id = id ∧ c.model = resolveModel cfg req
        ∧ c.usage = { promptTokens := 0, completionTokens := 0,
                      totalTokens := 0 })
    ∧ (∀ c ∈ (generateStreamChunks cfg id created req).dropLast,
        chunkFinish c = none)
    ∧ (∃ c, (generateStreamChunks cfg id created req).getLast? = some c
        ∧ chunkFinish c = some "stop")
    ∧ chunkFinish (generateResponse cfg id created req) = some "stop"
    ∧ (generateResponse cfg id created req).usage.totalTokens =
        (generateResponse cfg id created req).usage.promptTokens +
          (generateResponse cfg id created req).usage.completionTokens := by
  refine ⟨generateStreamChunks_mem cfg id created req, ?_, ?_, rfl, rfl⟩
  · intro c hc
    rw [generateStreamChunks_concat, List.dropLast_concat] at hc
    rcases List.mem_cons.mp hc with rfl | hm
    · rfl
    · obtain ⟨w, _, rfl⟩ := List.mem_map.mp hm
      rfl
  · rw [generateStreamChunks_concat, List.getLast?_concat]
    exact ⟨_, rfl, rfl⟩

/-- C8, witness: for the sample stream, the terminal chunk carries finish
reason `"stop"`, and the role chunk (a non-terminal element) carries
`none`; the non-streaming response carries `"stop"`. -/
theorem C8_witness :
    (∃ c, (generateStreamChunks sampleConfig "id0" 7 sampleRequest).getLast? =
        some c ∧ chunkFinish c = some "stop")
    ∧ chunkFinish (roleChunk "id0" 7 (resolveModel sampleConfig sampleRequest)) =
        none
    ∧ chunkFinish (generateResponse sampleConfig "id0" 7 sampleRequest) =
        some "stop" := by
  have h := C8_chunk_invariants sampleConfig "id0" 7 sampleRequest
  exact ⟨h.2.2.1, h.2.1 _ (by decide), h.2.2.2.1⟩

/-- C9: the reported model name, in the non-streaming response and in
every chunk, is the request's model when non-empty and the configured
default when the request's model is empty. -/
theorem C9_model_resolution (cfg : Config) (id : String) (created : Int)
    (req : ChatCompletionRequest) :
    (req.model ≠ "" →
      (generateResponse cfg id created req).model = req.model
      ∧ ∀ c ∈ generateStreamChunks cfg id created req, c.model = req.model)
    ∧ (req.model = "" →
        (generateResponse cfg id created req).model = cfg.defaultModel
        ∧ ∀ c ∈ generateStreamChunks cfg id created req,
            c.model = cfg.defaultModel) := by
  constructor
  · intro h
    have hres : resolveModel cfg req = req.model := by
      unfold resolveModel
      rw [if_neg h]
    refine ⟨hres, ?_⟩
    intro c hc
    rw [(generateStreamChunks_mem cfg id created req c hc).2.1, hres]
  · intro h
    have hres : resolveModel cfg req = cfg.defaultModel := by
      unfold resolveModel
      rw [if_pos h]
    refine ⟨hres, ?_⟩
    intro c hc
    rw [(generateStreamChunks_mem cfg id created req c hc).2.1, hres]

/-- A request leaving the model field empty. -/
def defaultModelRequest : ChatCompletionRequest :=
  { model := "", messages := [{ role := "user", content := "Hi" }],
    stream := false }

/-- C9, witness: the sample request's model `"test-model"` is echoed back;
an empty model field resolves to the configured default. -/
theorem C9_witness :
    (generateResponse sampleConfig "id0" 7 sampleRequest).model = "test-model"
    ∧ (generateResponse sampleConfig "id0" 7 defaultModelRequest).model =
        "llm-simulator-1" := by
  have h1 := (C9_model_resolution sampleConfig "id0" 7 sampleRequest).1
    (by decide)
  have h2 := (C9_model_resolution sampleConfig "id0" 7 defaultModelRequest).2
    rfl
  exact ⟨h1.1, h2.1⟩

/-- C10: with an empty message list (echo mode on or off), the guarded
last-message indexing is never taken: the composed text is the configured
fixed response, the prompt-token count is exactly 0, and the sole choice
of the non-streaming response carries the fixed response. Totality is
inherent: `generateResponse` and `generateStreamChunks` are total Lean
functions on all requests. -/
theorem C10_empty_messages_total (cfg : Config) (id : String) (created : Int)
    (req : ChatCompletionRequest) (h : req.messages = []) :
    getResponseText cfg req = cfg.fixedResponse
    ∧ (generateResponse cfg id created req).usage.promptTokens = 0
    ∧ ∀ ch ∈ (generateResponse cfg id created req).choices,
        ∃ m : Message, ch.message = some m ∧ m.content = cfg.fixedResponse := by
  have ht : getResponseText cfg req = cfg.fixedResponse := by
    unfold getResponseText
    rw [dif_neg]
    rintro ⟨_, hne⟩
    exact hne h
  refine ⟨ht, ?_, ?_⟩
  · show estimateTokens req.messages = 0
    rw [h]
    rfl
  · intro ch hch
    simp only [generateResponse, List.mem_singleton] at hch
    subst hch
    exact ⟨⟨"assistant", getResponseText cfg req⟩, rfl, ht⟩

/-- C10, witness: with echo mode on and an empty message list, the
composed text is the fixed response and the prompt-token count is 0. -/
theorem C10_witness :
    getResponseText echoConfig emptyRequest = echoConfig.fixedResponse
    ∧ (generateResponse echoConfig "id0" 7 emptyRequest).usage.promptTokens = 0 := by
  have h := C10_empty_messages_total echoConfig "id0" 7 emptyRequest rfl
  exact ⟨h.1, h.2.1⟩
